import Mathlib

/-!
A shallow embedding of the keyboard input controller of `axis360`
(`src/controls/keyboard.js`) together with proofs about it.

JavaScript objects used as maps (`state.keystate`, `state.handlers`,
`constraints.keys`, the static `keycodes` table) are embedded as
insertion-ordered association lists with unique keys, matching JS object
property semantics for the operations the code performs.  `undefined` is
embedded as `Option.none`.  The browser timer API (`setTimeout` /
`clearTimeout`) is embedded as an explicit environment holding the ids of
the scheduled, not-yet-fired, not-yet-cancelled timeouts, threaded through
every handler.
-/

namespace Axis360.Keyboard

/-! ### Association list helpers (JS object-as-map semantics) -/

/-- Look a key up in an association list (`obj[k]`): `none` is `undefined`. -/
def lookupAssoc (l : List (Nat × Bool)) (k : Nat) : Option Bool :=
  (l.find? (fun p => p.1 == k)).map Prod.snd

/-- Write `obj[k] = v`: overwrite in place when the key exists, otherwise append
(JS objects keep insertion order for later enumeration). -/
def setAssoc (l : List (Nat × Bool)) (k : Nat) (v : Bool) : List (Nat × Bool) :=
  match l with
  | [] => [(k, v)]
  | (k', v') :: rest =>
      if k' == k then (k, v) :: rest else (k', v') :: setAssoc rest k v

/-! ### The external `keycode` npm package

The module resolves key names to numeric codes through the external
`keycode` package.  We embed its name-to-code table restricted to the
names this module's tables mention; every other name resolves to
`undefined` (`none`), as the package does for unknown names. -/

/-- Name-to-code lookup of the external `keycode` npm package, restricted
to the names appearing in this module. -/
def keycodeNpm : String → Option Nat
  | "up" => some 38
  | "down" => some 40
  | "left" => some 37
  | "right" => some 39
  | "esc" => some 27
  | "space" => some 32
  | _ => none

/-- A JavaScript value passed where the code expects a key name or code:
a string, a number, or anything else (whose `typeof` is neither). -/
inductive JSArg where
  | str (s : String)
  | num (n : Nat)
  | other
deriving DecidableEq

/-- Normalization `key = 'string' == typeof key ? keycode(key) : key` followed by the
`'number' != typeof key` test: `some k` when the resolved value is a
number, `none` otherwise. -/
def resolveKey : JSArg → Option Nat
  | .str s => keycodeNpm s
  | .num n => some n
  | .other => none

/-! ### Static tables of the module -/

/-- The static `module.exports.keycodes` name-to-code table
(`src/controls/keyboard.js` lines 81-88), in source order. -/
def keycodes : List (String × Nat) :=
  [("esc", 27), ("space", 32), ("left", 37), ("up", 38), ("right", 39), ("down", 40)]

/-- Function `keyname(code)`: first name in the static `keycodes` table whose code
matches, `null` (`none`) when no name matches. -/
def keyname (code : Nat) : Option String :=
  (keycodes.find? (fun p => p.2 == code)).map Prod.fst

/-- Field `state.keynames`: the fixed list of supported key names. -/
def keynames : List String := ["up", "down", "left", "right"]

/-- Accessors `state.supported` and `state.keycodes`: both compute
`state.keynames.map(keycode)`.  An entry is `none` when a name fails to
resolve (none does here). -/
def supportedCodes : List (Option Nat) := keynames.map keycodeNpm

/-! ### Handlers and pan commands -/

/-- A pan delta `{x, y}` passed to the base controller's `pan` primitive. -/
structure Pan where
  x : ℚ
  y : ℚ
deriving DecidableEq

/-- A key handler: one of the four closures installed by the constructor,
or an opaque consumer-registered handler identified by a tag. -/
inductive Handler where
  | defUp
  | defDown
  | defLeft
  | defRight
  | custom (id : Nat)
deriving DecidableEq

/-- The pan commands a handler issues when invoked, as a function of the
controller's `state.panSpeed` at invocation time.  The four defaults are
the closures of `src/controls/keyboard.js` lines 224-238; a consumer
handler is opaque, so we record no pan for it (its invocation is still
visible in the dispatch trace). -/
def handlerPans (h : Handler) (panSpeed : ℚ) : List Pan :=
  match h with
  | .defUp => [⟨0, -(panSpeed / 2)⟩]
  | .defDown => [⟨0, panSpeed / 2⟩]
  | .defLeft => [⟨-(panSpeed * 2), 0⟩]
  | .defRight => [⟨panSpeed * 2, 0⟩]
  | .custom _ => []

/-- Lookup `state.handlers[code]`: the handler list registered for a code,
`[]` standing for an absent entry. -/
def lookupHandlers (hs : List (Nat × List Handler)) (code : Nat) : List Handler :=
  match hs.find? (fun p => p.1 == code) with
  | some p => p.2
  | none => []

/-- Step one of the registration: create the handler list when the key has none yet. -/
def ensureKey (hs : List (Nat × List Handler)) (k : Nat) : List (Nat × List Handler) :=
  if (hs.find? (fun p => p.1 == k)).isSome then hs else hs ++ [(k, [])]

/-- Step two of the registration: push `fn` onto the existing entry. -/
def pushAt (hs : List (Nat × List Handler)) (k : Nat) (fn : Handler) :
    List (Nat × List Handler) :=
  hs.map (fun p => if p.1 == k then (p.1, p.2 ++ [fn]) else p)

/-! ### Scene (`scope`) and controller state -/

/-- Shape of `scope.projections.constraints`: may be `null`, and its `keys` map may
itself be absent. -/
structure Constraints where
  keys : Option (List (Nat × Bool))

/-- The slice of the scene facade the keyboard controller reads. -/
structure Scope where
  forceFocus : Bool
  isFocused : Bool
  constraints : Option Constraints

/-- Test `constraints && constraints.keys && true == constraints.keys[key]`. -/
def constrained (scope : Scope) (code : Nat) : Bool :=
  match scope.constraints with
  | none => false
  | some cs =>
      match cs.keys with
      | none => false
      | some ks => lookupAssoc ks code == some true

/-- The mutable state of a `KeyboardController` relevant to these claims.
`panSpeed`, `isEnabled` and `forceUpdate` live on `this.state`; the base
`AxisController` fields not read by this module are omitted. -/
structure Controller where
  handlers : List (Nat × List Handler)
  keystate : List (Nat × Bool)
  panSpeed : ℚ
  isEnabled : Bool
  forceUpdate : Bool
  keyupTimeout : Option Nat

/-- Accessor `state.isKeydown`: some entry of `state.keystate` is `true`. -/
def Controller.isKeydown (c : Controller) : Bool :=
  c.keystate.any (fun p => p.2 == true)

/-! ### Browser timer environment -/

/-- The ids of scheduled, not-yet-fired, not-yet-cancelled timeouts
(every timeout this module schedules runs the same callback:
`this.state.forceUpdate = false`), plus a fresh-id counter. -/
structure TimerEnv where
  pending : List Nat
  nextId : Nat

/-- Model of `clearTimeout(handle)`: a no-op on an undefined or stale handle. -/
def clearTimeoutEnv (env : TimerEnv) : Option Nat → TimerEnv
  | none => env
  | some id => { env with pending := env.pending.erase id }

/-- Model of `setTimeout(cb, ms)`: schedules a fresh timeout and returns its handle. -/
def setTimeoutEnv (env : TimerEnv) : TimerEnv × Nat :=
  ({ pending := env.pending ++ [env.nextId], nextId := env.nextId + 1 }, env.nextId)

/-- The browser fires a scheduled timeout: the callback scheduled by
`onkeyup` sets `this.state.forceUpdate = false`.  Firing an id that is not
pending changes nothing. -/
def fireTimeout (c : Controller) (env : TimerEnv) (id : Nat) :
    Controller × TimerEnv :=
  if env.pending.contains id then
    ({ c with forceUpdate := false }, { env with pending := env.pending.erase id })
  else (c, env)

/-! ### The controller's methods -/

/-- Method `use(key, fn)` (`src/controls/keyboard.js` lines 302-311): resolve a
string name through `keycode`, throw a `TypeError` when the result is not
a number, otherwise create the code's handler list if absent and append
`fn` to it. -/
def use (c : Controller) (key : JSArg) (fn : Handler) : Except String Controller :=
  match resolveKey key with
  | none => .error "Expecting string or number."
  | some k => .ok { c with handlers := pushAt (ensureKey c.handlers k) k fn }

/-- Wrapper for `use` as called from the constructor, where the four fixed calls never
throw; on the (unreachable there) error the controller is left unchanged. -/
def useOr (c : Controller) (key : JSArg) (fn : Handler) : Controller :=
  match use c key fn with
  | .ok c' => c'
  | .error _ => c

/-- The controller the constructor builds: empty handler registry and key
state, then the four default bindings installed via `use` in source order.
Modelled from the spec: `DEFAULT_KEY_PAN_SPEED` comes from
`../constants`, which is not under `src/`; the spec only says `panSpeed`
"defaults to a fixed constant", so the initial pan speed is a parameter
here, as is `isEnabled` (set by the base class's `enable()`). -/
def mkController (speed : ℚ) (enabled : Bool) : Controller :=
  let c : Controller :=
    { handlers := [], keystate := [], panSpeed := speed,
      isEnabled := enabled, forceUpdate := false, keyupTimeout := none }
  let c := useOr c (.str "up") .defUp
  let c := useOr c (.str "down") .defDown
  let c := useOr c (.str "left") .defLeft
  useOr c (.str "right") .defRight

/-- Method `isKeySupported(key)` (`src/controls/keyboard.js` lines 325-348):
normalize to a code, reject non-numbers, reject a code marked `true` in
`scope.projections.constraints.keys`, reject a code absent from
`state.supported`. -/
def isKeySupported (scope : Scope) (key : JSArg) : Bool :=
  match resolveKey key with
  | none => false
  | some k =>
      if constrained scope k then false
      else if supportedCodes.contains (some k) = false then false
      else true

/-- The outcome of one `onkeydown` call: the controller, the timer
environment, the notifications emitted on `scope` and whether
`e.preventDefault()` ran. -/
structure KeydownResult where
  ctrl : Controller
  env : TimerEnv
  emits : List String
  prevented : Bool

/-- Method `onkeydown(e)` (`src/controls/keyboard.js` lines 358-391) with
`code = e.which`: always clear the pending keyup timeout first; return if
disabled; when focused, return on an unsupported or constrained code,
otherwise record the key as down and suppress the default action; finally
emit `"keydown"` on the scope. -/
def onkeydown (scope : Scope) (c : Controller) (env : TimerEnv) (code : Nat) :
    KeydownResult :=
  let env := clearTimeoutEnv env c.keyupTimeout
  if c.isEnabled = false then ⟨c, env, [], false⟩
  else
    let isFocused := scope.forceFocus || scope.isFocused
    if isFocused then
      if isKeySupported scope (.num code) = false then ⟨c, env, [], false⟩
      else
        let c := { c with keystate := setAssoc c.keystate code true }
        ⟨c, env, ["keydown"], true⟩
    else ⟨c, env, ["keydown"], false⟩

/-- The outcome of one `onkeyup` call; `emits` records the notifications
forwarded to the scope (`onkeyup` forwards none). -/
structure KeyupResult where
  ctrl : Controller
  env : TimerEnv
  emits : List String

/-- Method `onkeyup(e)` (`src/controls/keyboard.js` lines 401-412) with
`code = e.which`: unconditionally record the key as up; when focused, set
`forceUpdate`, clear the pending keyup timeout and schedule a fresh one
whose callback clears `forceUpdate`. -/
def onkeyup (scope : Scope) (c : Controller) (env : TimerEnv) (code : Nat) :
    KeyupResult :=
  let c := { c with keystate := setAssoc c.keystate code false }
  let isFocused := scope.forceFocus || scope.isFocused
  if isFocused then
    let c := { c with forceUpdate := true }
    let env := clearTimeoutEnv env c.keyupTimeout
    let (env, id) := setTimeoutEnv env
    ⟨{ c with keyupTimeout := some id }, env, []⟩
  else ⟨c, env, []⟩

/-- What one `update()` call did: the handler invocations in order, each
with the `{name, code}` argument it received; the pan commands the invoked
handlers issued, in order; and whether the base controller's `update` ran. -/
structure UpdateResult where
  trace : List (Handler × Option String × Nat)
  pans : List Pan
  baseCalled : Bool
deriving DecidableEq

/-- Method `update()` (`src/controls/keyboard.js` lines 268-288): early exit when
no key is down; otherwise for each code of `state.keycodes`, for each
handler registered for it, invoke the handler with
`{name: keyname(code), code}` when the key is held; then delegate to the
base controller's `update`.  Handlers only issue pan commands against the
camera, so the controller's own state is returned unchanged (`return
this`), which the type reflects by not returning a controller at all. -/
def update (c : Controller) : UpdateResult :=
  if c.isKeydown = false then ⟨[], [], false⟩
  else
    let trace := supportedCodes.flatMap (fun o =>
      match o with
      | none => []
      | some code =>
          (lookupHandlers c.handlers code).flatMap (fun h =>
            if lookupAssoc c.keystate code == some true then [(h, keyname code, code)]
            else []))
    ⟨trace, trace.flatMap (fun t => handlerPans t.1 c.panSpeed), true⟩

/-- Method `reset()` (`src/controls/keyboard.js` lines 250-257): clear the pending
keyup timeout, delegate to the base reset (opaque here: it touches neither
`keystate` nor the timer environment), then set every recorded key to
`false`. -/
def reset (c : Controller) (env : TimerEnv) : Controller × TimerEnv :=
  let env := clearTimeoutEnv env c.keyupTimeout
  ({ c with keystate := c.keystate.map (fun p => (p.1, false)) }, env)



/-! ### Reachable-state invariant of the release timer, and event sequences -/

/-- The release-timer invariant: at most one timeout scheduled by this
controller is ever pending, and when one is pending its id is the one
`state.keyupTimeout` holds; every pending id is below the fresh counter. -/
def TimerInv (c : Controller) (env : TimerEnv) : Prop :=
  (env.pending = [] ∨ ∃ id, env.pending = [id] ∧ c.keyupTimeout = some id)
  ∧ ∀ id ∈ env.pending, id < env.nextId

/-- An event the browser can deliver between two key-ups: another keydown,
or the firing of a scheduled timeout. -/
inductive Ev where
  | down (code : Nat)
  | fire (id : Nat)

/-- Deliver one event to the controller. -/
def stepEv (scope : Scope) (e : Ev) (p : Controller × TimerEnv) :
    Controller × TimerEnv :=
  match e with
  | .down code =>
      let r := onkeydown scope p.1 p.2 code
      (r.ctrl, r.env)
  | .fire id => fireTimeout p.1 p.2 id

/-- Deliver a sequence of events in order. -/
def runEvs (scope : Scope) : List Ev → Controller × TimerEnv → Controller × TimerEnv
  | [], p => p
  | e :: evs, p => runEvs scope evs (stepEv scope e p)



/-! ### Helper lemmas -/

theorem lookupAssoc_setAssoc_self (l : List (Nat × Bool)) (k : Nat) (v : Bool) :
    lookupAssoc (setAssoc l k v) k = some v := by
  induction l with
  | nil => simp [setAssoc, lookupAssoc]
  | cons p rest ih =>
      obtain ⟨k', v'⟩ := p
      by_cases h : k' = k
      · subst h; simp [setAssoc, lookupAssoc]
      · simpa [setAssoc, lookupAssoc, h] using ih

theorem isKeySupported_num (scope : Scope) (code : Nat) :
    isKeySupported scope (.num code) =
      (!constrained scope code && supportedCodes.contains (some code)) := by
  unfold isKeySupported resolveKey
  by_cases hc : constrained scope code <;>
    by_cases hs : supportedCodes.contains (some code) <;>
      simp [hc, hs]

theorem lookupHandlers_pushAt_ensureKey (hs : List (Nat × List Handler)) (k : Nat)
    (fn : Handler) :
    lookupHandlers (pushAt (ensureKey hs k) k fn) k = lookupHandlers hs k ++ [fn] := by
  induction hs with
  | nil => simp [ensureKey, pushAt, lookupHandlers]
  | cons p rest ih =>
      obtain ⟨k', l⟩ := p
      by_cases h : k' = k
      · subst h
        simp [ensureKey, pushAt, lookupHandlers, List.find?]
      · have hek : ensureKey ((k', l) :: rest) k = (k', l) :: ensureKey rest k := by
          unfold ensureKey
          rw [List.find?_cons_of_neg _ (by simp [h])]
          by_cases hrest : (rest.find? (fun p => p.1 == k)).isSome <;> simp [hrest]
        have hpush : pushAt ((k', l) :: ensureKey rest k) k fn
            = (k', l) :: pushAt (ensureKey rest k) k fn := by
          simp [pushAt, h]
        have hlook : ∀ tl : List (Nat × List Handler),
            lookupHandlers ((k', l) :: tl) k = lookupHandlers tl k := by
          intro tl
          unfold lookupHandlers
          rw [List.find?_cons_of_neg _ (by simp [h])]
        rw [hek, hpush, hlook (pushAt (ensureKey rest k) k fn), hlook rest, ih]

theorem onkeydown_env_eq (scope : Scope) (c : Controller) (env : TimerEnv) (code : Nat) :
    (onkeydown scope c env code).env = clearTimeoutEnv env c.keyupTimeout
    ∧ (onkeydown scope c env code).ctrl.keyupTimeout = c.keyupTimeout
    ∧ (onkeydown scope c env code).ctrl.forceUpdate = c.forceUpdate := by
  unfold onkeydown
  by_cases he : c.isEnabled <;> by_cases hf : (scope.forceFocus || scope.isFocused) <;>
    by_cases hs : isKeySupported scope (.num code) <;> simp [he, hf, hs]

theorem timerInv_clear (c : Controller) (env : TimerEnv) (h : TimerInv c env) :
    (clearTimeoutEnv env c.keyupTimeout).pending = [] := by
  obtain ⟨h1, _⟩ := h
  rcases h1 with h1 | ⟨id, hp, hk⟩
  · cases hkt : c.keyupTimeout <;> simp [clearTimeoutEnv, h1]
  · rw [hk]; simp [clearTimeoutEnv, hp]

theorem clearTimeoutEnv_nextId (env : TimerEnv) (o : Option Nat) :
    (clearTimeoutEnv env o).nextId = env.nextId := by
  cases o <;> rfl

theorem clearTimeoutEnv_pending_nil (env : TimerEnv) (o : Option Nat)
    (h : env.pending = []) : (clearTimeoutEnv env o).pending = [] := by
  cases o <;> simp [clearTimeoutEnv, h]

theorem runEvs_pending_nil (scope : Scope) (evs : List Ev) (p : Controller × TimerEnv)
    (hp : p.2.pending = []) :
    (runEvs scope evs p).1.forceUpdate = p.1.forceUpdate
    ∧ (runEvs scope evs p).2.pending = [] := by
  induction evs generalizing p with
  | nil => exact ⟨rfl, hp⟩
  | cons e evs ih =>
      have hstep : (stepEv scope e p).1.forceUpdate = p.1.forceUpdate
          ∧ (stepEv scope e p).2.pending = [] := by
        cases e with
        | down code =>
            have h := onkeydown_env_eq scope p.1 p.2 code
            refine ⟨h.2.2, ?_⟩
            rw [show (stepEv scope (Ev.down code) p).2 = (onkeydown scope p.1 p.2 code).env from rfl,
              h.1]
            exact clearTimeoutEnv_pending_nil p.2 p.1.keyupTimeout hp
        | fire id => simp [stepEv, fireTimeout, hp]
      have hrest := ih (stepEv scope e p) hstep.2
      refine ⟨?_, ?_⟩
      · rw [show runEvs scope (e :: evs) p = runEvs scope evs (stepEv scope e p) from rfl,
          hrest.1, hstep.1]
      · rw [show runEvs scope (e :: evs) p = runEvs scope evs (stepEv scope e p) from rfl]
        exact hrest.2

/-! ### Claim theorems -/

/-- C1: `onkeydown` records `keystate[code] = true` exactly when the
controller is enabled, the scene is focused (`forceFocus` or `isFocused`),
`code` is among the supported keycodes and `code` is not marked `true` in
the constraint set; in every other case (disabled, unfocused, unsupported
or constrained) the key state is left unchanged, so a keycode outside the
supported set is never written at all by `onkeydown`. -/
theorem onkeydown_keystate_characterization (scope : Scope) (c : Controller)
    (env : TimerEnv) (code : Nat) :
    (onkeydown scope c env code).ctrl.keystate =
      (if c.isEnabled && (scope.forceFocus || scope.isFocused)
          && supportedCodes.contains (some code) && !constrained scope code
       then setAssoc c.keystate code true
       else c.keystate) := by
  unfold onkeydown
  by_cases he : c.isEnabled <;>
    by_cases hf : (scope.forceFocus || scope.isFocused) <;>
      by_cases hs : supportedCodes.contains (some code) <;>
        by_cases hc : constrained scope code <;>
          simp_all [isKeySupported_num]

/-- C2: with the scene focused and unconstrained, holding one of the four
default-bound keys makes one `update()` tick issue exactly the
corresponding pan delta: up `{x: 0, y: -panSpeed/2}`, down
`{x: 0, y: panSpeed/2}`, left `{x: -panSpeed*2, y: 0}`, right
`{x: panSpeed*2, y: 0}`. -/
theorem default_bindings_pan_deltas (s : ℚ) :
    (update (onkeydown ⟨true, true, none⟩ (mkController s true) ⟨[], 0⟩ 38).ctrl).pans
      = [⟨0, -(s / 2)⟩]
    ∧ (update (onkeydown ⟨true, true, none⟩ (mkController s true) ⟨[], 0⟩ 40).ctrl).pans
      = [⟨0, s / 2⟩]
    ∧ (update (onkeydown ⟨true, true, none⟩ (mkController s true) ⟨[], 0⟩ 37).ctrl).pans
      = [⟨-(s * 2), 0⟩]
    ∧ (update (onkeydown ⟨true, true, none⟩ (mkController s true) ⟨[], 0⟩ 39).ctrl).pans
      = [⟨s * 2, 0⟩] := by
  have h38 : (onkeydown ⟨true, true, none⟩ (mkController s true) ⟨[], 0⟩ 38).ctrl
      = ({ handlers := [(38, [.defUp]), (40, [.defDown]), (37, [.defLeft]), (39, [.defRight])],
           keystate := [(38, true)], panSpeed := s, isEnabled := true,
           forceUpdate := false, keyupTimeout := none } : Controller) := rfl
  have h40 : (onkeydown ⟨true, true, none⟩ (mkController s true) ⟨[], 0⟩ 40).ctrl
      = ({ handlers := [(38, [.defUp]), (40, [.defDown]), (37, [.defLeft]), (39, [.defRight])],
           keystate := [(40, true)], panSpeed := s, isEnabled := true,
           forceUpdate := false, keyupTimeout := none } : Controller) := rfl
  have h37 : (onkeydown ⟨true, true, none⟩ (mkController s true) ⟨[], 0⟩ 37).ctrl
      = ({ handlers := [(38, [.defUp]), (40, [.defDown]), (37, [.defLeft]), (39, [.defRight])],
           keystate := [(37, true)], panSpeed := s, isEnabled := true,
           forceUpdate := false, keyupTimeout := none } : Controller) := rfl
  have h39 : (onkeydown ⟨true, true, none⟩ (mkController s true) ⟨[], 0⟩ 39).ctrl
      = ({ handlers := [(38, [.defUp]), (40, [.defDown]), (37, [.defLeft]), (39, [.defRight])],
           keystate := [(39, true)], panSpeed := s, isEnabled := true,
           forceUpdate := false, keyupTimeout := none } : Controller) := rfl
  refine ⟨?_, ?_, ?_, ?_⟩
  · rw [h38]; rfl
  · rw [h40]; rfl
  · rw [h37]; rfl
  · rw [h39]; rfl

/-- C5: `onkeyup` records `keystate[code] = false` unconditionally — for
every keycode, focused or not, supported or not — so after `onkeyup` the
key is never recorded as held. -/
theorem onkeyup_always_clears_key (scope : Scope) (c : Controller) (env : TimerEnv)
    (code : Nat) :
    lookupAssoc (onkeyup scope c env code).ctrl.keystate code = some false := by
  unfold onkeyup
  by_cases hf : (scope.forceFocus || scope.isFocused) <;>
    simp [hf, setTimeoutEnv, lookupAssoc_setAssoc_self]

/-- C6: when no recorded key is down, one `update()` call invokes no
handler, issues no pan command and does not even reach the base
controller's update (the early `return this` leaves the controller
unchanged). -/
theorem update_no_keydown_is_noop (c : Controller) (h : c.isKeydown = false) :
    update c = ⟨[], [], false⟩ := by
  unfold update
  simp [h]

/-- Witness for C6 at the freshly constructed controller. -/
theorem update_no_keydown_is_noop_witness :
    (mkController 1 true).isKeydown = false
    ∧ update (mkController 1 true) = ⟨[], [], false⟩ :=
  ⟨rfl, update_no_keydown_is_noop (mkController 1 true) rfl⟩

/-- C3 counterexample: a keydown received while the controller is disabled
forwards no notification (the handler returns before `scope.emit`); a
keydown for an unsupported code (65) while focused forwards none either;
and a keyup never forwards any notification at all. -/
theorem raw_notifications_cex :
    (onkeydown ⟨true, true, none⟩
        ({ handlers := [], keystate := [], panSpeed := 0, isEnabled := false,
           forceUpdate := false, keyupTimeout := none } : Controller) ⟨[], 0⟩ 38).emits = []
    ∧ (onkeydown ⟨true, true, none⟩ (mkController 0 true) ⟨[], 0⟩ 65).emits = []
    ∧ (onkeyup ⟨true, true, none⟩ (mkController 0 true) ⟨[], 0⟩ 38).emits = [] :=
  ⟨rfl, rfl, rfl⟩

/-- C3 amended: `onkeydown` forwards a raw `"keydown"` notification to the
scene's event bus iff the controller is enabled and either the scene is
unfocused or the key is supported and unconstrained (the disabled and the
focused-but-rejected paths return before `scope.emit`); `onkeyup` never
forwards a notification. -/
theorem raw_notifications_characterization (scope : Scope) (c : Controller)
    (env : TimerEnv) (code : Nat) :
    (onkeydown scope c env code).emits =
      (if c.isEnabled
          && (!(scope.forceFocus || scope.isFocused) || isKeySupported scope (.num code))
       then ["keydown"] else [])
    ∧ (onkeyup scope c env code).emits = [] := by
  constructor
  · unfold onkeydown
    by_cases he : c.isEnabled <;> by_cases hf : (scope.forceFocus || scope.isFocused) <;>
      by_cases hs : isKeySupported scope (.num code) <;> simp [he, hf, hs]
  · unfold onkeyup
    by_cases hf : (scope.forceFocus || scope.isFocused) <;> simp [hf, setTimeoutEnv]

set_option maxHeartbeats 1600000 in
/-- C7: `use` appends to the resolved code's handler list without touching
(or reordering) what was registered before, and with two consumer handlers
registered for `"up"` on a fresh controller, a tick taken while the up key
is held invokes the default up binding and then both consumer handlers, in
registration order, each with `{name: "up", code: 38}`.  `update` leaves
the key state untouched, so the same trace recurs on every later tick the
key is still held. -/
theorem use_appends_and_all_handlers_run (c : Controller) (k : Nat) (fn : Handler)
    (s : ℚ) :
    use c (.num k) fn = .ok { c with handlers := pushAt (ensureKey c.handlers k) k fn }
    ∧ lookupHandlers (pushAt (ensureKey c.handlers k) k fn) k
        = lookupHandlers c.handlers k ++ [fn]
    ∧ (update (onkeydown ⟨true, true, none⟩
          (useOr (useOr (mkController s true) (.str "up") (.custom 1)) (.str "up")
            (.custom 2)) ⟨[], 0⟩ 38).ctrl).trace
        = [(.defUp, some "up", 38), (.custom 1, some "up", 38), (.custom 2, some "up", 38)] := by
  refine ⟨rfl, lookupHandlers_pushAt_ensureKey c.handlers k fn, ?_⟩
  have hctrl : (onkeydown ⟨true, true, none⟩
        (useOr (useOr (mkController s true) (.str "up") (.custom 1)) (.str "up")
          (.custom 2)) ⟨[], 0⟩ 38).ctrl
      = ({ handlers := [(38, [.defUp, .custom 1, .custom 2]), (40, [.defDown]),
                        (37, [.defLeft]), (39, [.defRight])],
           keystate := [(38, true)], panSpeed := s, isEnabled := true,
           forceUpdate := false, keyupTimeout := none } : Controller) := rfl
  rw [hctrl]; rfl

/-- C8: `use` throws the `TypeError` exactly when the key argument, after
resolving a string through the name-to-code lookup, is not numeric (so the
registry is left untouched, no updated controller being produced); when
the key resolves to a code `k`, the handler is appended to `k`'s list,
which is created first when absent. -/
theorem use_typeerror_characterization (c : Controller) (key : JSArg) (fn : Handler) :
    (use c key fn).isOk = (resolveKey key).isSome
    ∧ use c key fn
        = (match resolveKey key with
           | none => Except.error "Expecting string or number."
           | some k => Except.ok { c with handlers := pushAt (ensureKey c.handlers k) k fn })
    ∧ ∀ k : Nat, lookupHandlers (pushAt (ensureKey c.handlers k) k fn) k
        = lookupHandlers c.handlers k ++ [fn] := by
  refine ⟨?_, ?_, fun k => lookupHandlers_pushAt_ensureKey c.handlers k fn⟩
  · unfold use
    cases h : resolveKey key <;> rfl
  · unfold use
    cases resolveKey key <;> rfl

/-- C9 counterexample: the static `keycodes` table does not contain
exactly the four supported directions — it has six entries, including
`esc` and `space`, neither of which is a supported key name and neither of
whose codes is in the supported set. -/
theorem keycodes_table_cex :
    keycodes.map Prod.fst = ["esc", "space", "left", "up", "right", "down"]
    ∧ keynames = ["up", "down", "left", "right"]
    ∧ keycodes.length ≠ keynames.length
    ∧ supportedCodes.contains (some 27) = false
    ∧ supportedCodes.contains (some 32) = false
    ∧ ("esc", 27) ∈ keycodes ∧ ("space", 32) ∈ keycodes := by
  decide

/-- C9 amended: the static `keycodes` table contains the four supported
directions with codes agreeing with the supported key set (looking each
supported key name up in the table yields exactly `state.supported`) —
plus two additional entries, `esc` (27) and `space` (32). -/
theorem keycodes_table_directions :
    keynames.map (fun n => (keycodes.find? (fun p => p.1 == n)).map Prod.snd)
      = supportedCodes
    ∧ keycodes.map Prod.fst = ["esc", "space", "left", "up", "right", "down"] := by
  decide

theorem onkeyup_unfocused_eq (scope : Scope) (c : Controller) (env : TimerEnv)
    (code : Nat) (hf : (scope.forceFocus || scope.isFocused) = false) :
    onkeyup scope c env code
      = ⟨{ c with keystate := setAssoc c.keystate code false }, env, []⟩ := by
  unfold onkeyup
  simp [hf]

theorem onkeyup_focused_spec (scope : Scope) (c : Controller) (env : TimerEnv)
    (code : Nat) (hf : (scope.forceFocus || scope.isFocused) = true) :
    (onkeyup scope c env code).ctrl.forceUpdate = true
    ∧ (onkeyup scope c env code).ctrl.keyupTimeout = some env.nextId
    ∧ (onkeyup scope c env code).env.pending
        = (clearTimeoutEnv env c.keyupTimeout).pending ++ [env.nextId]
    ∧ (onkeyup scope c env code).env.nextId = env.nextId + 1
    ∧ (onkeyup scope c env code).ctrl.keystate = setAssoc c.keystate code false := by
  unfold onkeyup
  simp [hf, setTimeoutEnv, clearTimeoutEnv_nextId]

theorem timerInv_onkeyup (scope : Scope) (c : Controller) (env : TimerEnv) (code : Nat)
    (h : TimerInv c env) :
    TimerInv (onkeyup scope c env code).ctrl (onkeyup scope c env code).env := by
  by_cases hf : (scope.forceFocus || scope.isFocused) = true
  · have hs := onkeyup_focused_spec scope c env code hf
    have hclear := timerInv_clear c env h
    refine ⟨Or.inr ⟨env.nextId, ?_, hs.2.1⟩, ?_⟩
    · rw [hs.2.2.1, hclear]
      rfl
    · intro id hid
      rw [hs.2.2.1, hclear] at hid
      simp at hid
      rw [hs.2.2.2.1, hid]
      omega
  · have hf' : (scope.forceFocus || scope.isFocused) = false := by
      revert hf
      cases (scope.forceFocus || scope.isFocused) <;> simp
    rw [onkeyup_unfocused_eq scope c env code hf']
    exact h

theorem timerInv_onkeydown (scope : Scope) (c : Controller) (env : TimerEnv) (code : Nat)
    (h : TimerInv c env) :
    TimerInv (onkeydown scope c env code).ctrl (onkeydown scope c env code).env := by
  have he := onkeydown_env_eq scope c env code
  have hclear : (onkeydown scope c env code).env.pending = [] := by
    rw [he.1]
    exact timerInv_clear c env h
  refine ⟨Or.inl hclear, ?_⟩
  intro x hx
  rw [hclear] at hx
  simp at hx

theorem timerInv_fire (c : Controller) (env : TimerEnv) (id : Nat) (h : TimerInv c env) :
    TimerInv (fireTimeout c env id).1 (fireTimeout c env id).2 := by
  obtain ⟨h1, h2⟩ := h
  unfold fireTimeout
  split
  · next hmem =>
      refine ⟨?_, ?_⟩
      · rcases h1 with h1 | ⟨id0, hp, hk⟩
        · rw [h1] at hmem
          simp at hmem
        · left
          have hid : id = id0 := by
            rw [hp] at hmem
            simpa using hmem
          rw [hp, hid]
          simp
      · intro x hx
        exact h2 x (List.mem_of_mem_erase hx)
  · next hmem => exact ⟨h1, h2⟩

theorem timerInv_reset (c : Controller) (env : TimerEnv) (h : TimerInv c env) :
    TimerInv (reset c env).1 (reset c env).2 := by
  have hclear := timerInv_clear c env h
  refine ⟨Or.inl hclear, ?_⟩
  intro x hx
  rw [show (reset c env).2 = clearTimeoutEnv env c.keyupTimeout from rfl, hclear] at hx
  simp at hx

/-- C4: on any focused key-up the controller sets `forceUpdate = true`,
cancels the pending release timer and schedules exactly one fresh timer,
recording its handle in `state.keyupTimeout`; the timer's firing sets
`forceUpdate = false`; and the at-most-one-pending-timer invariant
`TimerInv` is preserved by every timer-touching operation (`onkeyup`,
`onkeydown`, the timer callback, `reset`), so a second focused key-up
within the window supersedes — never stacks on — the prior timer. -/
theorem keyup_timer_discipline (scope : Scope) (c : Controller) (env : TimerEnv)
    (code id : Nat) (h : TimerInv c env) :
    ((scope.forceFocus || scope.isFocused) = true →
      (onkeyup scope c env code).ctrl.forceUpdate = true
      ∧ (onkeyup scope c env code).env.pending = [env.nextId]
      ∧ (onkeyup scope c env code).ctrl.keyupTimeout = some env.nextId)
    ∧ (fireTimeout c env id).1.forceUpdate
        = (if env.pending.contains id then false else c.forceUpdate)
    ∧ TimerInv (onkeyup scope c env code).ctrl (onkeyup scope c env code).env
    ∧ TimerInv (onkeydown scope c env code).ctrl (onkeydown scope c env code).env
    ∧ TimerInv (fireTimeout c env id).1 (fireTimeout c env id).2
    ∧ TimerInv (reset c env).1 (reset c env).2 := by
  refine ⟨?_, ?_, timerInv_onkeyup scope c env code h, timerInv_onkeydown scope c env code h,
    timerInv_fire c env id h, timerInv_reset c env h⟩
  · intro hf
    have hs := onkeyup_focused_spec scope c env code hf
    refine ⟨hs.1, ?_, hs.2.1⟩
    rw [hs.2.2.1, timerInv_clear c env h]
    rfl
  · by_cases hmem : id ∈ env.pending <;> simp [fireTimeout, hmem]

/-- Witness for C4: a focused key-up on a fresh controller with an empty
timer queue sets `forceUpdate` and leaves exactly the new timer pending. -/
theorem keyup_timer_discipline_witness :
    TimerInv (mkController 1 true) ⟨[], 0⟩
    ∧ (onkeyup ⟨true, true, none⟩ (mkController 1 true) ⟨[], 0⟩ 38).ctrl.forceUpdate = true
    ∧ (onkeyup ⟨true, true, none⟩ (mkController 1 true) ⟨[], 0⟩ 38).env.pending = [0] := by
  have hinv : TimerInv (mkController 1 true) ⟨[], 0⟩ := by
    refine ⟨Or.inl rfl, ?_⟩
    intro id hid
    simp at hid
  have h := keyup_timer_discipline ⟨true, true, none⟩ (mkController 1 true) ⟨[], 0⟩ 38 0 hinv
  exact ⟨hinv, (h.1 rfl).1, (h.1 rfl).2.1⟩

/-- C10: every `onkeydown` invocation — disabled, unfocused, unsupported
or constrained included — first cancels any pending release timer while
leaving `forceUpdate` unchanged; hence after a keydown in any state
satisfying the timer invariant, no sequence of further keydowns and timer
firings can change `forceUpdate` (the scheduled `forceUpdate = false`
callback has been cancelled), until a later focused key-up schedules a
fresh timer. -/
theorem keydown_cancels_timer_preserves_forceUpdate (scope : Scope) (c : Controller)
    (env : TimerEnv) (code : Nat) (h : TimerInv c env) :
    (onkeydown scope c env code).ctrl.forceUpdate = c.forceUpdate
    ∧ (onkeydown scope c env code).env = clearTimeoutEnv env c.keyupTimeout
    ∧ (onkeydown scope c env code).env.pending = []
    ∧ ∀ evs : List Ev,
        (runEvs scope evs ((onkeydown scope c env code).ctrl,
          (onkeydown scope c env code).env)).1.forceUpdate = c.forceUpdate := by
  have he := onkeydown_env_eq scope c env code
  have hclear : (onkeydown scope c env code).env.pending = [] := by
    rw [he.1]
    exact timerInv_clear c env h
  refine ⟨he.2.2, he.1, hclear, ?_⟩
  intro evs
  have hrun := runEvs_pending_nil scope evs
    ((onkeydown scope c env code).ctrl, (onkeydown scope c env code).env) hclear
  rw [hrun.1]
  exact he.2.2

/-- Witness for C10: with `forceUpdate` still true from a recent key-up
and its release timer pending, a keydown followed by the (now cancelled)
timer id firing leaves `forceUpdate` true. -/
theorem keydown_cancels_timer_preserves_forceUpdate_witness :
    TimerInv ({ mkController 1 true with forceUpdate := true, keyupTimeout := some 0 })
      ⟨[0], 1⟩
    ∧ (runEvs ⟨true, true, none⟩ [.down 40, .fire 0]
        ((onkeydown ⟨true, true, none⟩
            { mkController 1 true with forceUpdate := true, keyupTimeout := some 0 }
            ⟨[0], 1⟩ 38).ctrl,
         (onkeydown ⟨true, true, none⟩
            { mkController 1 true with forceUpdate := true, keyupTimeout := some 0 }
            ⟨[0], 1⟩ 38).env)).1.forceUpdate = true := by
  have hinv : TimerInv ({ mkController 1 true with forceUpdate := true, keyupTimeout := some 0 }) ⟨[0], 1⟩ := by
    refine ⟨Or.inr ⟨0, rfl, rfl⟩, ?_⟩
    intro id hid
    simp at hid
    subst hid
    norm_num
  have h := keydown_cancels_timer_preserves_forceUpdate ⟨true, true, none⟩
    { mkController 1 true with forceUpdate := true, keyupTimeout := some 0 }
    ⟨[0], 1⟩ 38 hinv
  exact ⟨hinv, h.2.2.2 [.down 40, .fire 0]⟩

end Axis360.Keyboard
